import Mathlib

/-!
# Verification of the uae-dap breakpoint / disassembly core

Shallow embedding of the breakpoint manager (`src/breakpointManager.ts`,
provided as `src/unnamed/part_000`) and the disassembly manager
(`src/disassembly/disassemblyManager.ts`) of the uae-dap debug adapter,
together with the string utilities they use
(`src/utils/strings.ts`).

JavaScript numbers are modelled as `JsNum` (an integer or `NaN`); the
sources only ever put integer values (or `NaN` from a failed `parseInt`)
into the fields we reason about, so the float aspect of JS numbers is
not needed.  Thrown JS exceptions are modelled as `Except String`
results carrying the error message; collaborator objects (gdb proxy,
program/symbol table, the two pure instruction decoders) are modelled
as explicit environment records of functions, universally quantified in
the theorems.
-/

deriving instance DecidableEq for Except

/-! ## JavaScript number and `parseInt` model -/

/-- A JavaScript number as used by the modelled code: an integer, or `NaN`
(produced by `parseInt` on a string with no usable digits). -/
inductive JsNum where
  | nan : JsNum
  | int : Int → JsNum
deriving DecidableEq, Repr

/-- JS truthiness of a number: `0` and `NaN` are falsy. -/
def JsNum.truthy : JsNum → Bool
  | .nan => false
  | .int n => n != 0

/-- Underlying integer of a non-`NaN` value (`0` for `NaN`; only used
under a truthiness guard in the model, mirroring the source). -/
def JsNum.toInt : JsNum → Int
  | .nan => 0
  | .int n => n

/-- JS `+` on numbers: `NaN` propagates. -/
def JsNum.add : JsNum → JsNum → JsNum
  | .int a, .int b => .int (a + b)
  | _, _ => .nan

/-- Whitespace accepted by JS `parseInt` / `trim` / the `\s` class
(the code points that can realistically occur in the modelled strings). -/
def jsIsSpace (c : Char) : Bool :=
  c == ' ' || c == '\t' || c == '\n' || c == '\r' ||
  c == Char.ofNat 0x0b || c == Char.ofNat 0x0c ||
  c == Char.ofNat 0xa0 || c == Char.ofNat 0xfeff ||
  c == Char.ofNat 0x2028 || c == Char.ofNat 0x2029

/-- Value of a decimal digit character. -/
def decDigitVal (c : Char) : Option Nat :=
  if c.isDigit then some (c.toNat - 48) else none

/-- Value of a hexadecimal digit character. -/
def hexDigitVal (c : Char) : Option Nat :=
  if c.isDigit then some (c.toNat - 48)
  else if 'a' ≤ c && c ≤ 'f' then some (c.toNat - 87)
  else if 'A' ≤ c && c ≤ 'F' then some (c.toNat - 55)
  else none

/-- Accumulate the longest digit prefix, JS-`parseInt` style. -/
def parseDigitsAcc (digitVal : Char → Option Nat) (radix : Nat) : Nat → List Char → Nat
  | acc, [] => acc
  | acc, c :: rest =>
    match digitVal c with
    | none => acc
    | some d => parseDigitsAcc digitVal radix (acc * radix + d) rest

/-- Value of the longest digit prefix; `none` when the first char is not a
digit (JS `parseInt` then yields `NaN`). -/
def parseDigits (digitVal : Char → Option Nat) (radix : Nat) : List Char → Option Nat
  | [] => none
  | c :: rest =>
    match digitVal c with
    | none => none
    | some d => some (parseDigitsAcc digitVal radix d rest)

/-- JS `parseInt(s, radix?)` for the two forms the sources use:
`radix` absent (auto-detecting a `0x` prefix, otherwise base 10) and
`radix = 16`.  Leading whitespace and an optional sign are skipped;
no digits at all gives `NaN`. -/
def parseIntWith (radix16 : Bool) (s : String) : JsNum :=
  let cs := s.data.dropWhile jsIsSpace
  let (neg, cs) :=
    match cs with
    | '-' :: r => (true, r)
    | '+' :: r => (false, r)
    | r => (false, r)
  let (hex, cs) :=
    match cs with
    | '0' :: 'x' :: r => (true, r)
    | '0' :: 'X' :: r => (true, r)
    | r => (radix16, r)
  let v :=
    if hex then parseDigits hexDigitVal 16 cs
    else parseDigits decDigitVal 10 cs
  match v with
  | none => JsNum.nan
  | some n => JsNum.int (if neg then -(n : Int) else (n : Int))

/-- JS `parseInt(s)` (no radix argument). -/
def parseIntJs (s : String) : JsNum := parseIntWith false s

/-- JS `parseInt(s, 16)`. -/
def parseIntHexJs (s : String) : JsNum := parseIntWith true s

/-- Lowercase hexadecimal digits of `n`, as produced by JS
`Number.prototype.toString(16)` for a natural number. -/
def natToHexChars (n : Nat) : List Char :=
  Nat.toDigits 16 n

/-- JS `v.toString(16)` for an integer value. -/
def intToHexJs (v : Int) : String :=
  if v < 0 then "-" ++ String.mk (natToHexChars v.natAbs)
  else String.mk (natToHexChars v.natAbs)

/-- JS template interpolation of a number (`NaN` prints as `"NaN"`). -/
def JsNum.render : JsNum → String
  | .nan => "NaN"
  | .int n => toString n

/-- JS template interpolation of a possibly-`undefined` number. -/
def renderOptNum : Option JsNum → String
  | none => "undefined"
  | some n => n.render

/-- JS template interpolation of a possibly-`undefined` string. -/
def renderOptStr : Option String → String
  | none => "undefined"
  | some s => s

/-! ## `src/utils/strings.ts` -/

/-- The `padStart` operation used by `formatHexadecimal`. -/
def jsPadStart (s : String) (n : Nat) (c : Char) : String :=
  String.mk (List.replicate (n - s.length) c) ++ s

/-- The `formatHexadecimal` from `src/utils/strings.ts` (default pad 8),
extended pointwise to `JsNum` by JS `toString(16)` semantics. -/
def formatHexadecimal (address : JsNum) (pad : Nat := 8) : String :=
  let digits := match address with
    | .nan => "NaN"
    | .int v => intToHexJs v
  "0x" ++ jsPadStart digits pad '0'

/-- The `formatAddress` from `src/utils/strings.ts`. -/
def formatAddress (value : Int) : String :=
  "$" ++ intToHexJs value

/-- Worker for `splitLines`: split on `\r?\n` (the accumulator holds the
current line reversed). -/
def splitLinesAcc : List Char → List Char → List String
  | acc, [] => [String.mk acc.reverse]
  | acc, '\n' :: rest =>
    let line :=
      match acc with
      | '\r' :: acc' => acc'.reverse
      | _ => acc.reverse
    String.mk line :: splitLinesAcc [] rest
  | acc, c :: rest => splitLinesAcc (c :: acc) rest

/-- The `splitLines` from `src/utils/strings.ts`: `value.split(/\r?\n/g)`. -/
def splitLines (value : String) : List String :=
  splitLinesAcc [] value.data

/-- JS `String.prototype.trim`. -/
def jsTrim (s : String) : String :=
  String.mk (((s.data.dropWhile jsIsSpace).reverse.dropWhile jsIsSpace).reverse)

/-- Worker for `collapseWs`; the fuel (an upper bound on the input
length, so the zero case is never reached) keeps the recursion
structural. -/
def collapseWsAux : Nat → List Char → List Char
  | _, [] => []
  | 0, cs => cs
  | _ + 1, [c] => [c]
  | fuel + 1, c1 :: c2 :: rest =>
    if jsIsSpace c1 && jsIsSpace c2 then
      ' ' :: collapseWsAux fuel ((c2 :: rest).dropWhile jsIsSpace)
    else
      c1 :: collapseWsAux fuel (c2 :: rest)

/-- JS `s.replace(/\s\s+/g, " ")`: every run of two or more whitespace
characters becomes a single space; a lone whitespace char is kept as is. -/
def collapseWs (cs : List Char) : List Char :=
  collapseWsAux cs.length cs

/-- Worker for `jsSplitOn`: split on the non-overlapping occurrences of
`sep`, scanning left to right (the accumulator holds the current piece
reversed; the fuel, an upper bound on the input length, keeps the
recursion structural and its zero case is never reached). -/
def jsSplitOnAux (sep : List Char) : Nat → List Char → List Char → List (List Char)
  | _, [], acc => [acc.reverse]
  | 0, cs, acc => [acc.reverse ++ cs]
  | fuel + 1, c :: rest, acc =>
    if sep.isPrefixOf (c :: rest) && !sep.isEmpty then
      acc.reverse :: jsSplitOnAux sep fuel (rest.drop (sep.length - 1)) []
    else
      jsSplitOnAux sep fuel rest (c :: acc)

/-- JS `s.split(sep)` with a non-empty string separator, as a list of
pieces. -/
def jsSplitOn (s : String) (sep : String) : List String :=
  (jsSplitOnAux sep.data s.data.length s.data []).map String.mk

/-- JS `s.replace(pat, rep)` with a *string* pattern: replaces only the
first occurrence. -/
def replaceFirst : List Char → List Char → List Char → List Char
  | [], _, _ => []
  | c :: rest, pat, rep =>
    if pat.isPrefixOf (c :: rest) then
      rep ++ (c :: rest).drop pat.length
    else
      c :: replaceFirst rest pat rep

/-! ## `DisassembledFile` (`src/disassembly/disassemblyManager.ts`) -/

/-- The disassembly-view identity of `src/disassembly/disassemblyManager.ts`.
Fields mirror the TS class; `Option` models `undefined`. -/
structure DisassembledFile where
  segmentId : Option JsNum := none
  stackFrameIndex : Option JsNum := none
  addressExpression : Option String := none
  length : Option JsNum := none
  copper : Bool := false
  path : String := ""
deriving DecidableEq, Repr

namespace DisassembledFile

def setPath (df : DisassembledFile) (p : String) : DisassembledFile :=
  { df with path := p }

def setSegmentId (df : DisassembledFile) (s : JsNum) : DisassembledFile :=
  { df with segmentId := some s }

def getSegmentId (df : DisassembledFile) : Option JsNum := df.segmentId

def setStackFrameIndex (df : DisassembledFile) (i : JsNum) : DisassembledFile :=
  { df with stackFrameIndex := some i }

def getStackFrameIndex (df : DisassembledFile) : Option JsNum := df.stackFrameIndex

def setAddressExpression (df : DisassembledFile) (e : String) : DisassembledFile :=
  { df with addressExpression := some e }

def getAddressExpression (df : DisassembledFile) : Option String := df.addressExpression

def setLength (df : DisassembledFile) (l : JsNum) : DisassembledFile :=
  { df with length := some l }

def getLength (df : DisassembledFile) : Option JsNum := df.length

def isSegment (df : DisassembledFile) : Bool := df.segmentId.isSome

def setCopper (df : DisassembledFile) (b : Bool) : DisassembledFile :=
  { df with copper := b }

def isCopper (df : DisassembledFile) : Bool := df.copper

/-- The `DisassembledFile.toString()`. -/
def render (df : DisassembledFile) : String :=
  if df.isSegment then
    df.path ++ "seg_" ++ renderOptNum df.segmentId ++ ".dbgasm"
  else if df.isCopper then
    df.path ++ "copper_" ++ renderOptStr df.addressExpression ++ "__" ++
      renderOptNum df.length ++ ".dbgasm"
  else
    df.path ++ renderOptNum df.stackFrameIndex ++ "__" ++
      renderOptStr df.addressExpression ++ "__" ++ renderOptNum df.length ++ ".dbgasm"

/-- The `DisassembledFile.toURI()`: `disassembly:` plus the rendered name with
the first `#` replaced by `%23` (JS `String.replace` with a string pattern
replaces only the first occurrence). -/
def toURI (df : DisassembledFile) : String :=
  "disassembly:" ++ String.mk (replaceFirst df.render.data "#".data "%23".data)

/-- The `DisassembledFile.isDebugAsmFile`: `path.endsWith(".dbgasm")`. -/
def isDebugAsmFile (path : String) : Bool :=
  List.isSuffixOf ".dbgasm".data path.data

end DisassembledFile

/-! ### The three filename regexes

`fromPath` matches the path against three anchored JS regexes.  They are
built from literals, `.` (any char except a line terminator), `[^_]+`
(greedy, with backtracking) and the greedy optional group `(.+\/)?`.
The matchers below implement exactly that backtracking search in
continuation-passing style. -/

/-- JS `.` (without the `s` flag): any char except a line terminator. -/
def jsDotChar (c : Char) : Bool :=
  !(c == '\n' || c == '\r' || c == Char.ofNat 0x2028 || c == Char.ofNat 0x2029)

/-- The `[^_]` class: any char except an underscore (including line terminators). -/
def notUnderscore (c : Char) : Bool := c != '_'

/-- Match a literal, then continue. -/
def litM (lit : List Char) (cs : List Char) (k : List Char → Option α) : Option α :=
  if lit.isPrefixOf cs then k (cs.drop lit.length) else none

/-- Match a single char of a class, then continue. -/
def oneM (p : Char → Bool) (cs : List Char) (k : List Char → Option α) : Option α :=
  match cs with
  | [] => none
  | c :: rest => if p c then k rest else none

/-- Greedy `p+` with backtracking: try the longest run of `p`-chars first,
handing the consumed chars and the rest to the continuation. -/
def plusGreedy (p : Char → Bool) (cs : List Char) (k : List Char → List Char → Option α) :
    Option α :=
  go ((cs.takeWhile p).length)
where
  go : Nat → Option α
    | 0 => none
    | n + 1 =>
      match k (cs.take (n + 1)) (cs.drop (n + 1)) with
      | some r => some r
      | none => go n

/-- Greedy optional `(.+\/)?`: first try the group present (with `.+`
greedy, so the longest prefix ending in `/`), then the group absent. -/
def optPathGreedy (cs : List Char) (k : Option (List Char) → List Char → Option α) :
    Option α :=
  go ((cs.takeWhile jsDotChar).length)
where
  go : Nat → Option α
    | 0 => k none cs
    | l + 1 =>
      match cs.drop (l + 1) with
      | '/' :: rest =>
        (match k (some (cs.take (l + 2))) rest with
         | some r => some r
         | none => go l)
      | _ => go l

/-- Match of `/^(?<path>.+\/)?seg_(?<segmentId>[^_]+).dbgasm$/`,
returning the `path` group (defaulted to `""` as in the destructuring)
and the `segmentId` group. -/
def matchSeg (cs : List Char) : Option (List Char × List Char) :=
  optPathGreedy cs fun pathGrp rest =>
    litM "seg_".data rest fun rest2 =>
      plusGreedy notUnderscore rest2 fun segId rest3 =>
        oneM jsDotChar rest3 fun rest4 =>
          litM "dbgasm".data rest4 fun rest5 =>
            if rest5.isEmpty then some (pathGrp.getD [], segId) else none

/-- Match of `/^(?<path>.+\/)?copper_(?<address>[^_]+)__(?<length>[^_]+).dbgasm$/`. -/
def matchCopper (cs : List Char) : Option (List Char × List Char × List Char) :=
  optPathGreedy cs fun pathGrp rest =>
    litM "copper_".data rest fun rest2 =>
      plusGreedy notUnderscore rest2 fun addr rest3 =>
        litM "__".data rest3 fun rest4 =>
          plusGreedy notUnderscore rest4 fun len rest5 =>
            oneM jsDotChar rest5 fun rest6 =>
              litM "dbgasm".data rest6 fun rest7 =>
                if rest7.isEmpty then some (pathGrp.getD [], addr, len) else none

/-- Match of `/^(?<path>.+\/)?(?<frame>[^_]+)__(?<address>[^_]+)__(?<length>[^_]+).dbgasm$/`. -/
def matchAddress (cs : List Char) :
    Option (List Char × List Char × List Char × List Char) :=
  optPathGreedy cs fun pathGrp rest =>
    plusGreedy notUnderscore rest fun frame rest2 =>
      litM "__".data rest2 fun rest3 =>
        plusGreedy notUnderscore rest3 fun addr rest4 =>
          litM "__".data rest4 fun rest5 =>
            plusGreedy notUnderscore rest5 fun len rest6 =>
              oneM jsDotChar rest6 fun rest7 =>
                litM "dbgasm".data rest7 fun rest8 =>
                  if rest8.isEmpty then some (pathGrp.getD [], frame, addr, len) else none

/-- The `DisassembledFile.fromPath`: try the three shapes in order; throw
`"Unrecognised filename format "` + path when none matches. -/
def DisassembledFile.fromPath (p : String) : Except String DisassembledFile :=
  match matchSeg p.data with
  | some (path, segmentId) =>
    .ok ((({} : DisassembledFile).setPath (String.mk path)).setSegmentId
      (parseIntJs (String.mk segmentId)))
  | none =>
  match matchCopper p.data with
  | some (path, address, length) =>
    .ok (((((({} : DisassembledFile).setPath (String.mk path)).setAddressExpression
      (String.mk address)).setLength (parseIntJs (String.mk length))).setCopper true))
  | none =>
  match matchAddress p.data with
  | some (path, frame, address, length) =>
    .ok ((((({} : DisassembledFile).setPath (String.mk path)).setStackFrameIndex
      (parseIntJs (String.mk frame))).setAddressExpression
      (String.mk address)).setLength (parseIntJs (String.mk length)))
  | none => .error ("Unrecognised filename format " ++ p)

/-! ## Breakpoint manager (`src/breakpointManager.ts`) -/

/-- The `GdbBreakpointType` from the gdb collaborator module. -/
inductive GdbBreakpointType where
  | SOURCE | DATA | INSTRUCTION | EXCEPTION | TEMPORARY
deriving DecidableEq, Repr

/-- The `GdbBreakpointAccessType`. -/
inductive GdbBreakpointAccessType where
  | READ | WRITE | READWRITE
deriving DecidableEq, Repr

/-- The `DebugProtocol.Source` fields the manager reads. -/
structure DapSource where
  name : Option String := none
  path : Option String := none
deriving DecidableEq, Repr

/-- The `GdbBreakpoint`: the breakpoint record handled by the manager. -/
structure GdbBreakpoint where
  breakpointType : GdbBreakpointType
  id : Option Int := none
  source : Option DapSource := none
  line : Option Int := none
  verified : Bool := false
  offset : JsNum := JsNum.int 0
  segmentId : Option Int := none
  exceptionMask : Option Int := none
  message : Option String := none
  defaultMessage : Option String := none
  temporary : Option Bool := none
  size : Option Int := none
  accessType : Option GdbBreakpointAccessType := none
deriving DecidableEq, Repr

/-- Modelled from the spec: `isDisassembledFile` is imported by the
breakpoint manager from the disassembly module (whose index file is not
under `src/`); per the spec a "recognized virtual-disassembly name" is a
`.dbgasm` name, i.e. exactly `DisassembledFile.isDebugAsmFile`. -/
def isDisassembledFile (path : String) : Bool :=
  DisassembledFile.isDebugAsmFile path

/-- Result of `Program.findLocationForLine`. -/
structure BpLocation where
  segmentId : Int
  offset : Int
deriving DecidableEq, Repr

/-- Behaviour of the collaborators consumed by `setBreakpoint`:
the gdb proxy and the `Program` symbol table.  Any call may fail
(`Except.error` models a thrown JS `Error` carrying its message). -/
structure BpEnv where
  isConnected : Bool
  hasProgram : Bool
  findLocationForLine : String → Int → Except String (Option BpLocation)
  getAddressForFileEditorLine : String → Int → Except String JsNum
  gdbSetBreakpoint : GdbBreakpoint → Except String Unit

/-- Mutable state of a `BreakpointManager` instance relevant to the
claims: the active list and the pending queue. -/
structure BpState where
  breakpoints : List GdbBreakpoint := []
  pendingBreakpoints : List GdbBreakpoint := []
deriving DecidableEq, Repr

namespace BreakpointManager

/-- The `addPendingBreakpoint(breakpoint, err?)`: mark unverified, record the
error message when one is given, append to the pending queue. -/
def addPendingBreakpoint (bp : GdbBreakpoint) (err : Option String) (s : BpState) : BpState :=
  let bp := { bp with verified := false }
  let bp :=
    match err with
    | some m => { bp with message := some m }
    | none => bp
  { s with pendingBreakpoints := s.pendingBreakpoints ++ [bp] }

/-- The `addLocation(breakpoint, path, line)`: best-effort resolve of
segment/offset; returns the (possibly updated) breakpoint and whether a
location was added.  A throw from `findLocationForLine` propagates. -/
def addLocation (env : BpEnv) (bp : GdbBreakpoint) (path : String) (line : Int) :
    Except String (GdbBreakpoint × Bool) :=
  if env.hasProgram then do
    let location ← env.findLocationForLine path line
    match location with
    | some loc =>
      return ({ bp with segmentId := some loc.segmentId, offset := JsNum.int loc.offset }, true)
    | none => return (bp, false)
  else
    return (bp, false)

/-- The `try` block of `setBreakpoint`.  An error result carries the
thrown message together with the breakpoint as mutated so far (the TS
code mutates `bp` in place, so the catch handler sees those mutations);
an ok result carries the mutated breakpoint and the updated state. -/
def setBreakpointTry (env : BpEnv) (bp : GdbBreakpoint) (s : BpState) :
    Except (String × GdbBreakpoint) (GdbBreakpoint × BpState) :=
  let isData := bp.breakpointType == GdbBreakpointType.DATA
  let isInstruction := bp.breakpointType == GdbBreakpointType.INSTRUCTION
  let hasMask := bp.exceptionMask.isSome
  match bp.source, bp.line, bp.id with
  | some src, some line, some _ =>
    let bp := { bp with verified := false }
    let path := src.path.getD ""
    if !env.hasProgram then
      .error ("Program is not running", bp)
    else if !isDisassembledFile path then
      match addLocation env bp path line with
      | .error e => .error (e, bp)
      | .ok (bp, true) =>
        (match env.gdbSetBreakpoint bp with
         | .ok _ => .ok (bp, { s with breakpoints := s.breakpoints ++ [bp] })
         | .error e => .error (e, bp))
      | .ok (bp, false) => .error ("Segment offset not resolved", bp)
    else
      let name := src.name.getD ""
      match env.getAddressForFileEditorLine name line with
      | .error e => .error (e, bp)
      | .ok address =>
        let bp := { bp with segmentId := none, offset := address }
        (match env.gdbSetBreakpoint bp with
         | .ok _ => .ok (bp, { s with breakpoints := s.breakpoints ++ [bp] })
         | .error e => .error (e, bp))
  | _, _, _ =>
    if hasMask || isData || isInstruction then
      match env.gdbSetBreakpoint bp with
      | .ok _ =>
        .ok (bp, if !hasMask then { s with breakpoints := s.breakpoints ++ [bp] } else s)
      | .error e => .error (e, bp)
    else
      .error ("Breakpoint info incomplete", bp)

/-- The `setBreakpoint(bp)`: when disconnected, enqueue pending and report
not-applied; otherwise run the `try` block, demoting any failure to a
pending entry carrying the captured message.  The result Bool is the
"added immediately?" return value; the function is total — the catch
handler never rethrows. -/
def setBreakpoint (env : BpEnv) (bp : GdbBreakpoint) (s : BpState) : Bool × BpState :=
  if !env.isConnected then
    (false, addPendingBreakpoint bp none s)
  else
    match setBreakpointTry env bp s with
    | .ok (_, s') => (true, s')
    | .error (e, bp') => (false, addPendingBreakpoint bp' (some e) s)

/-- Dispatch loop of `sendAllPendingBreakpoints` over the captured
entries.  The source dispatches them concurrently (`Promise.all`); since
JS interleaves only at suspension points, the loop is sequentialised
here, and `ext i` models the entries other callers append to the pending
queue at the suspension point before the `i`-th dispatch (`ext N` after
the last one).  `envs i` is the collaborator behaviour seen by the
`i`-th `setBreakpoint` call.  Also returns the list of dispatched
breakpoints, in order. -/
def flushLoop (envs : Nat → BpEnv) (ext : Nat → List GdbBreakpoint) :
    List GdbBreakpoint → Nat → BpState → BpState × List GdbBreakpoint
  | [], i, s => ({ s with pendingBreakpoints := s.pendingBreakpoints ++ ext i }, [])
  | bp :: rest, i, s =>
    let s := { s with pendingBreakpoints := s.pendingBreakpoints ++ ext i }
    let (_, s') := setBreakpoint (envs i) bp s
    let (sFin, ds) := flushLoop envs ext rest (i + 1) s'
    (sFin, bp :: ds)

/-- The `sendAllPendingBreakpoints()`: when the pending queue is non-empty,
capture it, replace it by an empty list, then dispatch every captured
entry via `setBreakpoint`. -/
def sendAllPendingBreakpoints (envs : Nat → BpEnv) (ext : Nat → List GdbBreakpoint)
    (s : BpState) : BpState × List GdbBreakpoint :=
  if s.pendingBreakpoints.length > 0 then
    flushLoop envs ext s.pendingBreakpoints 0 { s with pendingBreakpoints := [] }
  else
    (s, [])

/-- The `isSameSource(source, other)`. -/
def isSameSource (source other : DapSource) : Bool :=
  (source.path.isSome && source.path == other.path) ||
  (source.name.isSome && isDisassembledFile (source.name.getD "") &&
    source.name == other.name)

/-- The removal condition of `clearBreakpointsType`:
`isCorrectType && (!source || isSameSource)`. -/
def shouldClear (type : GdbBreakpointType) (source : Option DapSource)
    (bp : GdbBreakpoint) : Bool :=
  let isCorrectType := bp.breakpointType == type
  let isSameSrc :=
    match source, bp.source with
    | some src, some bpSrc => isSameSource bpSrc src
    | _, _ => false
  isCorrectType && (source.isNone || isSameSrc)

/-- Loop body of `clearBreakpointsType`: walk the active list with the
running remote-removal call counter `k` (`removeEnv k bp` is the outcome
of the `k`-th `gdbProxy.removeBreakpoint` call).  Returns the retained
entries, the `hasError` flag and the list of breakpoints for which a
removal was attempted, in order. -/
def clearLoop (removeEnv : Nat → GdbBreakpoint → Except String Unit)
    (type : GdbBreakpointType) (source : Option DapSource) :
    List GdbBreakpoint → Nat → List GdbBreakpoint × Bool × List GdbBreakpoint
  | [], _ => ([], false, [])
  | bp :: rest, k =>
    if shouldClear type source bp then
      match removeEnv k bp with
      | .ok _ =>
        let (rem, he, at') := clearLoop removeEnv type source rest (k + 1)
        (rem, he, bp :: at')
      | .error _ =>
        let (rem, _he, at') := clearLoop removeEnv type source rest (k + 1)
        (bp :: rem, true, bp :: at')
    else
      let (rem, he, at') := clearLoop removeEnv type source rest k
      (bp :: rem, he, at')

/-- Result of `clearBreakpointsType`: the new state (the active-list
assignment happens before the aggregate throw, so it persists either
way), the thrown error message if any, and the attempted removals. -/
structure ClearResult where
  state : BpState
  thrown : Option String
  attempts : List GdbBreakpoint
deriving DecidableEq, Repr

/-- The `clearBreakpointsType(type, source?)`. -/
def clearBreakpointsType (removeEnv : Nat → GdbBreakpoint → Except String Unit)
    (type : GdbBreakpointType) (source : Option DapSource) (s : BpState) : ClearResult :=
  let (remaining, hasError, attempts) := clearLoop removeEnv type source s.breakpoints 0
  { state := { s with breakpoints := remaining },
    thrown := if hasError then some "Some breakpoints cannot be removed" else none,
    attempts := attempts }

end BreakpointManager

/-! ## Disassembly manager (`src/disassembly/disassemblyManager.ts`) -/

/-- A decoded line cached by the manager. -/
structure DisassembledLine where
  text : String
  isCopper : Bool
deriving DecidableEq, Repr

/-- A copper instruction as produced by the `disassembleCopper`
collaborator: its `toString()` text and its `getInstructionBytes()`. -/
structure CopperInstr where
  text : String
  bytes : String
deriving DecidableEq, Repr

/-- A `DebugProtocol.DisassembledInstruction`. -/
structure DisasmInstruction where
  address : String
  instruction : String
  instructionBytes : Option String := none
deriving DecidableEq, Repr

/-- Result of the CPU `disassemble` collaborator: the formatted code
text and the instruction list. -/
structure DisasmResult where
  code : String
  instructions : List DisasmInstruction
deriving DecidableEq, Repr

/-- Behaviour of the collaborators consumed by `DisassemblyManager`:
the gdb proxy, the `Program` expression evaluator and the two pure
decoders. -/
structure DisasmEnv where
  isCopperThread : Int → Bool
  isCPUThread : Int → Bool
  getMemory : JsNum → JsNum → Except String String
  getSegmentMemory : JsNum → Except String String
  toRelativeOffset : Int → Int × Int
  toAbsoluteOffset : JsNum → Int → Int
  disassembleFull : String → Option Int → Except String DisasmResult
  disassembleCopper : String → List CopperInstr
  evaluate : String → Except String (Option JsNum)
  isConnected : Bool

/-- Mutable state of a `DisassemblyManager` instance: the line cache
(a JS `Map`, modelled as an association list with unique keys). -/
structure DMState where
  lineCache : List (Int × DisassembledLine) := []
deriving DecidableEq, Repr

/-- JS `Map.set`: replace the entry for the key, or append a new one. -/
def cacheSet (m : List (Int × DisassembledLine)) (k : Int) (v : DisassembledLine) :
    List (Int × DisassembledLine) :=
  if (m.lookup k).isSome then
    m.map fun p => if p.1 == k then (k, v) else p
  else
    m ++ [(k, v)]

namespace DisassemblyManager

/-- The `try` block of `disassembleLine`: fetch a 10-byte window and
decode it with the decoder matching the thread kind, appending the
decoded text to `text0` (the `"$pc: "` prefix).  A thread that is
neither copper nor CPU leaves the text as the bare prefix.  Any failure
(memory fetch, decoder, or indexing `lines[0]` of an empty copper
decode) is an error result. -/
def disassembleLineTry (env : DisasmEnv) (pc : Int) (thread : Int) (isCopper : Bool)
    (text0 : String) : Except String String := do
  let memory ← env.getMemory (JsNum.int pc) (JsNum.int 10)
  if isCopper then
    match env.disassembleCopper memory with
    | [] => throw "TypeError: lines[0] is undefined"
    | first :: _ => return text0 ++ ((jsSplitOn first.text "    ").headD "")
  else if env.isCPUThread thread then do
    let res ← env.disassembleFull memory none
    let lines := splitLines res.code
    let selectedLine := (lines.find? fun l => (jsTrim l).length != 0).getD (lines.headD "")
    let elms := jsSplitOn selectedLine "  "
    let selectedLine := if elms.length > 2 then elms.getD 2 "" else selectedLine
    return text0 ++ String.mk (collapseWs (jsTrim selectedLine).data)
  else
    return text0

/-- The `disassembleLine(pc, thread)`: cache hit returns immediately with no
memory fetch; on a miss the `try` block runs (one fetch), a success is
cached, a failure is swallowed and yields the uncached address-only
line.  The `Nat` component counts the `getMemory` calls performed. -/
def disassembleLine (env : DisasmEnv) (pc : Int) (thread : Int) (s : DMState) :
    DisassembledLine × DMState × Nat :=
  match s.lineCache.lookup pc with
  | some cached => (cached, s, 0)
  | none =>
    let text0 := formatAddress pc ++ ": "
    let isCopper := env.isCopperThread thread
    match disassembleLineTry env pc thread isCopper text0 with
    | .ok text =>
      ({ text := text, isCopper := isCopper },
       { s with lineCache := cacheSet s.lineCache pc { text := text, isCopper := isCopper } },
       1)
    | .error _ => ({ text := text0, isCopper := isCopper }, s, 1)

/-- The `isCopperLine(pc)`: the cached flag, `false` when uncached. -/
def isCopperLine (pc : Int) (s : DMState) : Bool :=
  match s.lineCache.lookup pc with
  | some cached => cached.isCopper
  | none => false

/-- The `getCopperAddress(copperIndex)`: read 4 bytes at the list-selector
register and parse them as hex. -/
def getCopperAddress (env : DisasmEnv) (copperIndex : Nat) : Except String JsNum := do
  let copperHigh : Int := if copperIndex == 1 then 0xdff080 else 0xdff084
  let memory ← env.getMemory (JsNum.int copperHigh) (JsNum.int 4)
  return parseIntHexJs memory

/-- The `getLineNumberInDisassembledSegment(segmentId, offset)`: decode the
whole segment and return the 1-based index of the instruction whose
parsed address equals `offset`; throw when there is none. -/
def getLineNumberInDisassembledSegment (env : DisasmEnv) (segmentId : Int) (offset : Int) :
    Except String Int := do
  let memory ← env.getSegmentMemory (JsNum.int segmentId)
  let res ← env.disassembleFull memory none
  match res.instructions.findIdx? (fun instr => parseIntJs instr.address == JsNum.int offset) with
  | none =>
    throw ("Cannot retrieve line for segment " ++ toString segmentId ++ ", offset " ++
      toString offset ++ ": line not found")
  | some index => return (index : Int) + 1

end DisassemblyManager

/-- The `GdbStackPosition` fields used by `getStackFrame`. -/
structure GdbStackPosition where
  index : Int
  pc : Int
deriving DecidableEq, Repr

/-- A `Source(name, uri)` attached to a stack frame. -/
structure FrameSource where
  name : String
  uri : String
deriving DecidableEq, Repr

/-- The `StackFrame` DAP value as built by `getStackFrame`.  The
`@vscode/debugadapter` constructor `new StackFrame(i, nm)` initialises
`line` and `column` to `0` and leaves `source` undefined. -/
structure StackFrame where
  id : Int
  name : String
  source : Option FrameSource := none
  line : Int := 0
  column : Int := 0
  instructionPointerReference : Option String := none
deriving DecidableEq, Repr

namespace DisassemblyManager

/-- The `getStackFrame(stackPosition, thread)`.  The copper list-selector
reads can throw (the two awaited `getCopperAddress` calls are outside
any `try`), hence the `Except` result; everything else in the body is
total or caught. -/
def getStackFrame (env : DisasmEnv) (stackPosition : GdbStackPosition) (thread : Int)
    (s : DMState) : Except String (StackFrame × DMState) := do
  let stackFrameIndex := stackPosition.index
  let address := stackPosition.pc
  let (dline, s1, _) := disassembleLine env address thread s
  let stackFrameLabel := dline.text
  let isCopper := dline.isCopper
  let dAsmFile := ((({} : DisassembledFile).setCopper isCopper).setStackFrameIndex
    (JsNum.int stackFrameIndex)).setLength (JsNum.int 500)
  -- lineNumber is initialised to 1 and only overwritten on the paths below
  let (segmentId, offset) := env.toRelativeOffset address
  let (lineNumber, dAsmFile) ←
    if segmentId ≥ 0 && !isCopper then
      let dAsmFile := dAsmFile.setSegmentId (JsNum.int segmentId)
      match getLineNumberInDisassembledSegment env segmentId offset with
      | .ok returnedLineNumber =>
        -- `if (returnedLineNumber || returnedLineNumber === 0)` is true for
        -- every defined number, so the returned value always lands here
        pure (returnedLineNumber, dAsmFile)
      | .error _ => pure ((-1 : Int), dAsmFile)
    else
      if isCopper then do
        let cop1Addr ← getCopperAddress env 1
        let cop2Addr ← getCopperAddress env 2
        let lineInCop1 : Int :=
          if cop1Addr.truthy then Int.fdiv (address - cop1Addr.toInt + 4) 4 else -1
        let lineInCop2 : Int :=
          if cop2Addr.truthy then Int.fdiv (address - cop2Addr.toInt + 4) 4 else -1
        let (newAddress, lineNumber) :=
          if lineInCop1 ≥ 0 && (lineInCop2 == -1 || lineInCop1 ≤ lineInCop2) then
            (cop1Addr.toInt, lineInCop1)
          else if lineInCop2 ≥ 0 then
            (cop2Addr.toInt, lineInCop2)
          else
            (address, (1 : Int))
        pure (lineNumber, dAsmFile.setAddressExpression ("$" ++ intToHexJs newAddress))
      else
        pure ((1 : Int), dAsmFile.setAddressExpression ("$" ++ intToHexJs address))
  let sf : StackFrame :=
    { id := stackFrameIndex, name := stackFrameLabel,
      instructionPointerReference := some (formatHexadecimal (JsNum.int address)) }
  let sf :=
    if lineNumber ≥ 0 && isCopper then
      { sf with source := some { name := dAsmFile.render, uri := dAsmFile.toURI },
                line := lineNumber, column := 1 }
    else
      sf
  return (sf, s1)

/-- The `disassembleSegment(segmentId)`. -/
def disassembleSegment (env : DisasmEnv) (segmentId : JsNum) :
    Except String (List DisasmInstruction) := do
  let memory ← env.getSegmentMemory segmentId
  let startAddress := env.toAbsoluteOffset segmentId 0
  let res ← env.disassembleFull memory (some startAddress)
  return res.instructions

/-- The `disassembleNumericalAddress(searchedAddress, length, isCopper)`. -/
def disassembleNumericalAddress (env : DisasmEnv) (searchedAddress : JsNum)
    (length : JsNum) (isCopper : Bool) : Except String (List DisasmInstruction) := do
  let address := searchedAddress
  if !env.isConnected then
    throw "Debugger not started"
  let memory ← env.getMemory address length
  if isCopper then
    return (env.disassembleCopper memory).mapIdx fun i inst =>
      { instructionBytes := some inst.bytes,
        address := formatHexadecimal (address.add (JsNum.int (4 * (i : Int)))),
        instruction := inst.text }
  else do
    let res ← env.disassembleFull memory (some address.toInt)
    return res.instructions

/-- The `disassembleAddress(addressExpression, length, offset, isCopper)`. -/
def disassembleAddress (env : DisasmEnv) (addressExpression : String) (length : JsNum)
    (offset : Option JsNum) (isCopper : Bool) : Except String (List DisasmInstruction) := do
  let searchedAddress : Option JsNum ←
    if isCopper && (addressExpression == "1" || addressExpression == "2") then do
      let a ← getCopperAddress env (if addressExpression == "1" then 1 else 2)
      pure (some a)
    else
      env.evaluate addressExpression
  match searchedAddress with
  | none => throw "Unable to resolve address expression void returned"
  | some addr =>
    let addr :=
      match offset with
      | some o => if o.truthy then addr.add o else addr
      | none => addr
    disassembleNumericalAddress env addr length isCopper

/-- Default instruction used to model the (in-bounds) JS index access
`instructions[searchedLN]`. -/
def dfltInstr : DisasmInstruction := { address := "", instruction := "" }

/-- The instruction-producing step of `getAddressForFileEditorLine`: the
inline `if (dAsmFile.isSegment()) … else …` block that either decodes the
whole segment, decodes the address window, or leaves `instructions`
undefined. -/
def resolveInstructions (env : DisasmEnv) (filePath : String) (dAsmFile : DisassembledFile) :
    Except String (Option (List DisasmInstruction)) :=
  if dAsmFile.isSegment then
    match dAsmFile.getSegmentId with
    | some segmentId => do
      let instrs ← disassembleSegment env segmentId
      pure (some instrs)
    | none => throw ("SegmentId undefined in path " ++ filePath)
  else
    match dAsmFile.getAddressExpression, dAsmFile.getLength with
    | some address, some length => do
      let instrs ← disassembleAddress env address length (some (JsNum.int 0))
        dAsmFile.isCopper
      pure (some instrs)
    | _, _ => pure none

/-- The `getAddressForFileEditorLine(filePath, lineNumber)`. -/
def getAddressForFileEditorLine (env : DisasmEnv) (filePath : String) (lineNumber : Int) :
    Except String JsNum := do
  if lineNumber > 0 then
    let dAsmFile ← DisassembledFile.fromPath filePath
    let instructions : Option (List DisasmInstruction) ←
      resolveInstructions env filePath dAsmFile
    match instructions with
    | some instrs =>
      let searchedLN := lineNumber - 1
      if searchedLN < (instrs.length : Int) then
        return parseIntHexJs (instrs.getD searchedLN.toNat dfltInstr).address
      else
        throw ("Searched line " ++ toString searchedLN ++ " greater than file \"" ++
          filePath ++ "\" length: " ++ toString instrs.length)
    | none => throw ("Searched line " ++ toString lineNumber ++ " has no instructions")
  else
    throw ("Invalid line number: '" ++ toString lineNumber ++ "'")

end DisassemblyManager

/-! ## Helpers for the theorem statements -/

/-- Did this removal call fail? -/
def removalFailed (removeEnv : Nat → GdbBreakpoint → Except String Unit) (k : Nat)
    (bp : GdbBreakpoint) : Bool :=
  match removeEnv k bp with
  | .ok _ => false
  | .error _ => true

/-- Pair every entry of the active list with the value the remote-removal
call counter has when the entry is reached (the counter advances only on
entries satisfying `pred`). -/
def attemptRanks (pred : GdbBreakpoint → Bool) :
    List GdbBreakpoint → Nat → List (GdbBreakpoint × Nat)
  | [], _ => []
  | bp :: rest, k =>
    if pred bp then (bp, k) :: attemptRanks pred rest (k + 1)
    else (bp, k) :: attemptRanks pred rest k

/-! ## Concrete collaborator behaviours and values for the closed instances -/

/-- A copper thread outside any segment; copper list pointers read as
`$1000` and `$2000`. -/
def copperSelEnv : DisasmEnv where
  isCopperThread := fun _ => true
  isCPUThread := fun _ => false
  getMemory := fun a _ =>
    if a == JsNum.int 0xdff080 then .ok "00001000"
    else if a == JsNum.int 0xdff084 then .ok "00002000"
    else .ok "deadbeef00"
  getSegmentMemory := fun _ => .error "no segment"
  toRelativeOffset := fun _ => (-1, 0)
  toAbsoluteOffset := fun _ _ => 0
  disassembleFull := fun _ _ => .error "cpu decoder unused"
  disassembleCopper := fun _ => [{ text := "MOVE x", bytes := "0180 0000" }]
  evaluate := fun _ => .ok none
  isConnected := true

/-- A CPU thread at an address inside segment 0, offset 4; the segment
decodes to three instructions at offsets 0, 4, 8. -/
def segFrameEnv : DisasmEnv where
  isCopperThread := fun _ => false
  isCPUThread := fun _ => true
  getMemory := fun _ _ => .ok "deadbeef00"
  getSegmentMemory := fun _ => .ok "segmem"
  toRelativeOffset := fun _ => (0, 4)
  toAbsoluteOffset := fun _ _ => 0
  disassembleFull := fun m _ =>
    if m == "segmem" then
      .ok { code := "", instructions := [
        { address := "0", instruction := "i0" },
        { address := "4", instruction := "i1" },
        { address := "8", instruction := "i2" }] }
    else
      .ok { code := "lbl:  moveq #0,d0  ; x", instructions := [] }
  disassembleCopper := fun _ => []
  evaluate := fun _ => .ok none
  isConnected := true

/-- Segment views decode to exactly two instructions. -/
def segWindowEnv : DisasmEnv where
  isCopperThread := fun _ => false
  isCPUThread := fun _ => true
  getMemory := fun _ _ => .ok "deadbeef00"
  getSegmentMemory := fun _ => .ok "segmem"
  toRelativeOffset := fun _ => (0, 4)
  toAbsoluteOffset := fun _ _ => 1024
  disassembleFull := fun _ _ =>
    .ok { code := "", instructions := [
      { address := "0x400", instruction := "i0" },
      { address := "0x404", instruction := "i1" }] }
  disassembleCopper := fun _ => []
  evaluate := fun _ => .ok none
  isConnected := true

/-- Every memory fetch fails. -/
def failFetchEnv : DisasmEnv :=
  { copperSelEnv with getMemory := fun _ _ => .error "memory read failed" }

/-- The segment identity with id 3 of the round-trip property. -/
def segFile3 : DisassembledFile :=
  ({} : DisassembledFile).setSegmentId (JsNum.int 3)

/-- The copper identity `address "$400", length 20` of the round-trip
property. -/
def copperFile400 : DisassembledFile :=
  ((({} : DisassembledFile).setAddressExpression "$400").setLength
    (JsNum.int 20)).setCopper true

/-- The generic identity `frame 2, address "$1000", length 100` of the
round-trip property. -/
def addressFile2 : DisassembledFile :=
  ((({} : DisassembledFile).setStackFrameIndex (JsNum.int 2)).setAddressExpression
    "$1000").setLength (JsNum.int 100)

/-- An identity whose rendered name contains two `#` characters. -/
def doubleHashFile : DisassembledFile :=
  ((({} : DisassembledFile).setAddressExpression "#a#").setLength
    (JsNum.int 1)).setCopper true

/-- A disconnected gdb proxy. -/
def bpDisconnectedEnv : BpEnv where
  isConnected := false
  hasProgram := false
  findLocationForLine := fun _ _ => .ok none
  getAddressForFileEditorLine := fun _ _ => .error "not loaded"
  gdbSetBreakpoint := fun _ => .ok ()

/-- A connected gdb proxy on which every collaborator call succeeds. -/
def bpOkEnv : BpEnv where
  isConnected := true
  hasProgram := true
  findLocationForLine := fun _ _ => .ok (some { segmentId := 0, offset := 16 })
  getAddressForFileEditorLine := fun _ _ => .ok (JsNum.int 0x100)
  gdbSetBreakpoint := fun _ => .ok ()

/-- A connected proxy whose breakpoint installation is rejected. -/
def bpGdbFailEnv : BpEnv :=
  { bpOkEnv with gdbSetBreakpoint := fun _ => .error "Target rejected" }

/-- A concrete data breakpoint. -/
def dataBp : GdbBreakpoint :=
  { breakpointType := .DATA, id := some 1, offset := JsNum.int 32,
    size := some 2, accessType := some .READWRITE }

/-- A concrete source breakpoint. -/
def srcBp : GdbBreakpoint :=
  { breakpointType := .SOURCE, id := some 0,
    source := some { name := some "main.c", path := some "/src/main.c" },
    line := some 3, offset := JsNum.int 0 }

/-- A second concrete source breakpoint (other file). -/
def srcBp2 : GdbBreakpoint :=
  { breakpointType := .SOURCE, id := some 2,
    source := some { name := some "other.c", path := some "/src/other.c" },
    line := some 9, offset := JsNum.int 0 }

/-! ## Theorems -/

/-- C6: the `DisassembledFile` encoding round-trips for the three identity
shapes: segmentId 3 renders as `"seg_3.dbgasm"` and parses back to the same
segment identity (with `isSegment()` true); the copper identity
`("$400", 20)` renders as `"copper_$400__20.dbgasm"` and parses back
matching; the generic identity `(frame 2, "$1000", 100)` renders as
`"2__$1000__100.dbgasm"` and parses back matching. -/
theorem disassembledFile_roundTrips :
    segFile3.render = "seg_3.dbgasm" ∧
    DisassembledFile.fromPath "seg_3.dbgasm" = .ok segFile3 ∧
    segFile3.isSegment = true ∧
    copperFile400.render = "copper_$400__20.dbgasm" ∧
    DisassembledFile.fromPath "copper_$400__20.dbgasm" = .ok copperFile400 ∧
    addressFile2.render = "2__$1000__100.dbgasm" ∧
    DisassembledFile.fromPath "2__$1000__100.dbgasm" = .ok addressFile2 := by
  decide

/-- C9: `toURI` replaces only the first `#` of the rendered filename
(JS `String.replace` with a string pattern is replace-first), so an
identity whose name holds two `#` characters produces a locator that
still contains an unencoded `#` — contradicting the requirement that
every occurrence be percent-encoded, and the code comment's purpose of
making the name URI-safe. -/
theorem toURI_keeps_second_hash :
    doubleHashFile.render = "copper_#a#__1.dbgasm" ∧
    doubleHashFile.toURI = "disassembly:copper_%23a#__1.dbgasm" ∧
    '#' ∈ doubleHashFile.toURI.data := by
  decide

/-- C10 counterexample: `"seg_12abc.dbgasm"` matches the segment shape and
its numeric field text `"12abc"` is not a decimal number, yet parsing
yields segmentId 12 (the value of the leading digit prefix), not NaN —
refuting "for every path whose … numeric field is not a decimal number …
the numeric field is NaN". -/
theorem fromPath_digit_prefix_not_nan :
    DisassembledFile.fromPath "seg_12abc.dbgasm" =
      .ok (({} : DisassembledFile).setSegmentId (JsNum.int 12)) ∧
    JsNum.int 12 ≠ JsNum.nan := by
  decide

/-- C10 (amended): `fromPath` validates only the structural shape: when a
shape matches, parsing succeeds with the numeric field equal to the JS
`parseInt` of the field text — NaN when the text has no leading decimal
digits (e.g. `"seg_x.dbgasm"` gives segmentId NaN with `isSegment()` still
true), the value of the digit prefix otherwise — and the
unrecognised-filename error is raised exactly when no shape's pattern
matches. -/
theorem fromPath_shape_only :
    DisassembledFile.fromPath "seg_x.dbgasm" =
      .ok (({} : DisassembledFile).setSegmentId JsNum.nan) ∧
    (({} : DisassembledFile).setSegmentId JsNum.nan).isSegment = true ∧
    ∀ p : String,
      (∃ e, DisassembledFile.fromPath p = .error e) ↔
        (matchSeg p.data = none ∧ matchCopper p.data = none ∧ matchAddress p.data = none) := by
  refine ⟨by decide, by decide, fun p => ?_⟩
  unfold DisassembledFile.fromPath
  cases h1 : matchSeg p.data with
  | some v => obtain ⟨a, b⟩ := v; simp
  | none =>
    cases h2 : matchCopper p.data with
    | some v => obtain ⟨a, b, c⟩ := v; simp
    | none =>
      cases h3 : matchAddress p.data with
      | some v => obtain ⟨a, b, c, d⟩ := v; simp
      | none => simp

/-- Closed instance of `fromPath_shape_only`: a name matching no shape is
rejected. -/
theorem fromPath_shape_only_witness :
    ∃ e, DisassembledFile.fromPath "bogus.txt" = .error e :=
  (fromPath_shape_only.2.2 "bogus.txt").mpr (by decide)

/-- C1 counterexample: at the claim's own vector (cop1Addr = `0x1000`,
cop2Addr = `0x2000`, pc = `0x1010`) the code attaches line 1, not 5:
list 2's candidate is `floor((0x1010 − 0x2000 + 4)/4) = −1019`, so the
`lineInCop2 === -1` test fails and `5 <= -1019` fails, no list is
selected, and `lineNumber` keeps its initial value 1. -/
theorem getStackFrame_copper_vector_line1 :
    (DisassemblyManager.getStackFrame copperSelEnv { index := 7, pc := 0x1010 } 1
        {}).toOption.map (fun r => r.1.line) = some 1 ∧
    (DisassemblyManager.getStackFrame copperSelEnv { index := 7, pc := 0x1010 } 1
        {}).toOption.map (fun r => r.1.line) ≠ some 5 := by
  decide

/-- C1 (amended): for a coprocessor frame whose address is outside any
segment, with both list-selector reads succeeding, the candidate for
copper list i is `floor((pc − copiAddr + 4)/4)` when the pointer parses
to a truthy number and −1 otherwise; list 1 is selected iff its candidate
is ≥ 0 and (list 2's candidate equals −1 — whether from an invalid
pointer or from the arithmetic — or list 1's candidate ≤ list 2's);
otherwise list 2 iff its candidate is ≥ 0; otherwise the line number
keeps its initial value 1.  The frame is always annotated with the
resulting line and the matching address expression (the line is ≥ 0 in
every case), so no-annotation never happens on this path. -/
theorem getStackFrame_copper_selection (env : DisasmEnv) (sp : GdbStackPosition)
    (thread : Int) (s : DMState) (m1 m2 : String)
    (hcop : (DisassemblyManager.disassembleLine env sp.pc thread s).1.isCopper = true)
    (hseg : (env.toRelativeOffset sp.pc).1 < 0)
    (h1 : env.getMemory (JsNum.int 0xdff080) (JsNum.int 4) = .ok m1)
    (h2 : env.getMemory (JsNum.int 0xdff084) (JsNum.int 4) = .ok m2) :
    ∃ sf s1, DisassemblyManager.getStackFrame env sp thread s = .ok (sf, s1) ∧
      sf.line =
        (let cop1 := parseIntHexJs m1
         let cop2 := parseIntHexJs m2
         let l1 : Int := if cop1.truthy then Int.fdiv (sp.pc - cop1.toInt + 4) 4 else -1
         let l2 : Int := if cop2.truthy then Int.fdiv (sp.pc - cop2.toInt + 4) 4 else -1
         if l1 ≥ 0 && (l2 == -1 || l1 ≤ l2) then l1
         else if l2 ≥ 0 then l2
         else 1) ∧
      sf.source.isSome = true := by
  rcases hr : DisassemblyManager.disassembleLine env sp.pc thread s with ⟨dl, s1, n⟩
  rcases hro : env.toRelativeOffset sp.pc with ⟨sid, off⟩
  rw [hr] at hcop
  rw [hro] at hseg
  simp only at hcop hseg
  have hsid : ¬ (sid ≥ 0) := by omega
  have g1 : DisassemblyManager.getCopperAddress env 1 = .ok (parseIntHexJs m1) := by
    unfold DisassemblyManager.getCopperAddress
    norm_num [h1, Except.bind, bind, pure, Except.pure]
  have g2 : DisassemblyManager.getCopperAddress env 2 = .ok (parseIntHexJs m2) := by
    unfold DisassemblyManager.getCopperAddress
    norm_num [h2, Except.bind, bind, pure, Except.pure]
  unfold DisassemblyManager.getStackFrame
  simp only [hr, hro, hcop, g1, g2, Bool.not_true, Bool.and_false, Bool.false_eq_true,
    if_false, if_true, Except.bind, bind, pure, Except.pure, hsid, Bool.and_true]
  set c1 := parseIntHexJs m1 with hc1
  set c2 := parseIntHexJs m2 with hc2
  set L1 : Int := if c1.truthy = true then (sp.pc - c1.toInt + 4).fdiv 4 else -1 with hL1
  set L2 : Int := if c2.truthy = true then (sp.pc - c2.toInt + 4).fdiv 4 else -1 with hL2
  set P : Int × Int :=
    if (decide (L1 ≥ 0) && (L2 == -1 || decide (L1 ≤ L2))) = true then (c1.toInt, L1)
    else if L2 ≥ 0 then (c2.toInt, L2) else (sp.pc, 1) with hP
  have hpos : P.2 ≥ 0 := by
    rw [hP]
    split
    · next h =>
      simp only [Bool.and_eq_true, decide_eq_true_eq] at h
      exact h.1
    · split
      · next h => exact h
      · norm_num
  have hd : decide (P.2 ≥ 0) = true := decide_eq_true hpos
  simp only [hd, reduceIte]
  refine ⟨_, _, rfl, ?_, ?_⟩
  · show P.2 = _
    rw [hP]
    split
    · rfl
    · next h =>
      split
      · rfl
      · rfl
  · rfl

/-- Closed instance of `getStackFrame_copper_selection` at the claim's
vector: both pointers are truthy, the candidates are 5 and −1019, the
selection falls through to the initial value 1, and the frame is
annotated. -/
theorem getStackFrame_copper_selection_witness :
    ∃ sf s1,
      DisassemblyManager.getStackFrame copperSelEnv { index := 7, pc := 0x1010 } 1 {} =
        .ok (sf, s1) ∧
      sf.line =
        (let cop1 := parseIntHexJs "00001000"
         let cop2 := parseIntHexJs "00002000"
         let l1 : Int := if cop1.truthy then Int.fdiv (0x1010 - cop1.toInt + 4) 4 else -1
         let l2 : Int := if cop2.truthy then Int.fdiv (0x1010 - cop2.toInt + 4) 4 else -1
         if l1 ≥ 0 && (l2 == -1 || l1 ≤ l2) then l1
         else if l2 ≥ 0 then l2
         else 1) ∧
      sf.source.isSome = true :=
  getStackFrame_copper_selection copperSelEnv { index := 7, pc := 0x1010 } 1 {}
    "00001000" "00002000" (by decide) (by decide) (by decide) (by decide)

/-- C7 counterexample: on a CPU thread at segment 0, offset 4, the segment
decode holds the instruction at that offset at 1-based position 2
(`getLineNumberInDisassembledSegment` returns 2), yet the returned frame
has `line = 0` and no source — the source/line annotation is attached
only to coprocessor frames, so the frame's line number is not the 1-based
index the claim states (nor −1 in the unmapped case). -/
theorem getStackFrame_segment_frame_unannotated :
    DisassemblyManager.getLineNumberInDisassembledSegment segFrameEnv 0 4 = .ok 2 ∧
    (DisassemblyManager.getStackFrame segFrameEnv { index := 3, pc := 0x4004 } 1
        {}).toOption.map (fun r => (r.1.line, r.1.source)) = some (0, none) := by
  decide

/-- C7 (amended): for an address inside a known segment on a
non-coprocessor thread, `getStackFrame` succeeds and the internal lookup
`getLineNumberInDisassembledSegment` yields the 1-based position of the
instruction at that offset (the catch turning a lookup failure into −1
keeps the call from failing), but the returned frame carries no
source/line annotation: its `line` stays at the constructor default 0 and
`source` is absent, annotations being reserved for coprocessor frames. -/
theorem getStackFrame_segment_internal_line (env : DisasmEnv) (sp : GdbStackPosition)
    (thread : Int) (s : DMState)
    (hcop : (DisassemblyManager.disassembleLine env sp.pc thread s).1.isCopper = false)
    (hseg : (env.toRelativeOffset sp.pc).1 ≥ 0) :
    (∃ sf s1, DisassemblyManager.getStackFrame env sp thread s = .ok (sf, s1) ∧
       sf.source = none ∧ sf.line = 0 ∧ sf.column = 0)
  ∧ (∀ mem res i,
       env.getSegmentMemory (JsNum.int (env.toRelativeOffset sp.pc).1) = .ok mem →
       env.disassembleFull mem none = .ok res →
       res.instructions.findIdx?
           (fun instr =>
             parseIntJs instr.address == JsNum.int (env.toRelativeOffset sp.pc).2) = some i →
       DisassemblyManager.getLineNumberInDisassembledSegment env
           (env.toRelativeOffset sp.pc).1 (env.toRelativeOffset sp.pc).2 =
         .ok ((i : Int) + 1)) := by
  rcases hr : DisassemblyManager.disassembleLine env sp.pc thread s with ⟨dl, s1, n⟩
  rcases hro : env.toRelativeOffset sp.pc with ⟨sid, off⟩
  rw [hr] at hcop
  rw [hro] at hseg
  simp only at hcop hseg
  constructor
  · unfold DisassemblyManager.getStackFrame
    simp only [hr, hro, hcop, Bool.not_false, Bool.and_true, decide_eq_true hseg,
      if_true, Except.bind, bind, pure, Except.pure, Bool.and_false]
    cases hln : DisassemblyManager.getLineNumberInDisassembledSegment env sid off with
    | ok v => exact ⟨_, _, rfl, rfl, rfl, rfl⟩
    | error e => exact ⟨_, _, rfl, rfl, rfl, rfl⟩
  · intro mem res i hm hd hf
    simp only at hm hf
    unfold DisassemblyManager.getLineNumberInDisassembledSegment
    simp only [hm, hd, hf, Except.bind, bind, pure, Except.pure]

/-- Closed instance of `getStackFrame_segment_internal_line` on the
concrete segment environment. -/
theorem getStackFrame_segment_internal_line_witness :
    (∃ sf s1,
       DisassemblyManager.getStackFrame segFrameEnv { index := 3, pc := 0x4004 } 1 {} =
         .ok (sf, s1) ∧
       sf.source = none ∧ sf.line = 0 ∧ sf.column = 0)
  ∧ (∀ mem res i,
       segFrameEnv.getSegmentMemory
           (JsNum.int (segFrameEnv.toRelativeOffset 0x4004).1) = .ok mem →
       segFrameEnv.disassembleFull mem none = .ok res →
       res.instructions.findIdx?
           (fun instr =>
             parseIntJs instr.address ==
               JsNum.int (segFrameEnv.toRelativeOffset 0x4004).2) = some i →
       DisassemblyManager.getLineNumberInDisassembledSegment segFrameEnv
           (segFrameEnv.toRelativeOffset 0x4004).1
           (segFrameEnv.toRelativeOffset 0x4004).2 =
         .ok ((i : Int) + 1)) :=
  getStackFrame_segment_internal_line segFrameEnv { index := 3, pc := 0x4004 } 1 {}
    (by decide) (by decide)

/-- C8 counterexample: with a 2-instruction segment view, requesting line 5
fails with `"Searched line 4 greater than file \"seg_3.dbgasm\" length: 2"`
— the message reports the zero-based index 4 and the count 2, but not the
requested line number 5, contrary to the claim that it reports the
requested line number. -/
theorem getAddressForFileEditorLine_zero_based_message :
    DisassemblyManager.getAddressForFileEditorLine segWindowEnv "seg_3.dbgasm" 5 =
      .error "Searched line 4 greater than file \"seg_3.dbgasm\" length: 2" ∧
    List.IsInfix "4".data
      "Searched line 4 greater than file \"seg_3.dbgasm\" length: 2".data ∧
    ¬ List.IsInfix "5".data
      "Searched line 4 greater than file \"seg_3.dbgasm\" length: 2".data := by
  decide

/-- C8 (amended): `getAddressForFileEditorLine(path, lineNumber)` throws
when `lineNumber ≤ 0`, when the path matches none of the three identity
shapes (the `fromPath` error propagates), when the identity cannot be
resolved to instructions (resolution errors propagate; an identity that
produces no instruction list yields the has-no-instructions error), and
when `lineNumber` exceeds the decoded instruction count — in which case
the error message reports the zero-based index `lineNumber − 1` and the
actual instruction count; otherwise it returns the address of the
1-based `lineNumber`-th decoded instruction. -/
theorem getAddressForFileEditorLine_spec (env : DisasmEnv) (filePath : String)
    (lineNumber : Int) :
    (lineNumber ≤ 0 →
       DisassemblyManager.getAddressForFileEditorLine env filePath lineNumber =
         .error ("Invalid line number: '" ++ toString lineNumber ++ "'"))
  ∧ (∀ e, DisassembledFile.fromPath filePath = .error e → 0 < lineNumber →
       DisassemblyManager.getAddressForFileEditorLine env filePath lineNumber = .error e)
  ∧ (∀ df e, DisassembledFile.fromPath filePath = .ok df →
       DisassemblyManager.resolveInstructions env filePath df = .error e → 0 < lineNumber →
       DisassemblyManager.getAddressForFileEditorLine env filePath lineNumber = .error e)
  ∧ (∀ df, DisassembledFile.fromPath filePath = .ok df →
       DisassemblyManager.resolveInstructions env filePath df = .ok none → 0 < lineNumber →
       DisassemblyManager.getAddressForFileEditorLine env filePath lineNumber =
         .error ("Searched line " ++ toString lineNumber ++ " has no instructions"))
  ∧ (∀ df instrs, DisassembledFile.fromPath filePath = .ok df →
       DisassemblyManager.resolveInstructions env filePath df = .ok (some instrs) →
       0 < lineNumber →
       (lineNumber - 1 < (instrs.length : Int) →
          DisassemblyManager.getAddressForFileEditorLine env filePath lineNumber =
            .ok (parseIntHexJs
              (instrs.getD (lineNumber - 1).toNat DisassemblyManager.dfltInstr).address))
       ∧ ((instrs.length : Int) ≤ lineNumber - 1 →
          DisassemblyManager.getAddressForFileEditorLine env filePath lineNumber =
            .error ("Searched line " ++ toString (lineNumber - 1) ++
              " greater than file \"" ++ filePath ++ "\" length: " ++
              toString instrs.length))) := by
  unfold DisassemblyManager.getAddressForFileEditorLine
  by_cases hpos : lineNumber > 0
  · rw [if_pos hpos]
    refine ⟨fun h => absurd hpos (by omega), ?_, ?_, ?_, ?_⟩
    · intro e he _
      simp only [he, Except.bind, bind, pure, Except.pure]
    · intro df e hdf hres _
      simp only [hdf, hres, Except.bind, bind, pure, Except.pure]
    · intro df hdf hres _
      simp only [hdf, hres, Except.bind, bind, pure, Except.pure]
      rfl
    · intro df instrs hdf hres _
      constructor
      · intro hlt
        simp only [hdf, hres, Except.bind, bind, pure, Except.pure, if_pos hlt]
      · intro hge
        have : ¬ (lineNumber - 1 < (instrs.length : Int)) := by omega
        simp only [hdf, hres, Except.bind, bind, pure, Except.pure, if_neg this]
        rfl
  · rw [if_neg hpos]
    refine ⟨fun _ => rfl, ?_, ?_, ?_, ?_⟩
    · intro e _ h; exact absurd h hpos
    · intro df e _ _ h; exact absurd h hpos
    · intro df _ _ h; exact absurd h hpos
    · intro df instrs _ _ h; exact absurd h hpos

/-- Closed instance of `getAddressForFileEditorLine_spec`: line 2 of the
2-instruction segment view resolves to the second instruction's address. -/
theorem getAddressForFileEditorLine_spec_witness :
    DisassemblyManager.getAddressForFileEditorLine segWindowEnv "seg_3.dbgasm" 2 =
      .ok (JsNum.int 0x404) :=
  ((getAddressForFileEditorLine_spec segWindowEnv "seg_3.dbgasm" 2).2.2.2.2
    (({} : DisassembledFile).setSegmentId (JsNum.int 3))
    [{ address := "0x400", instruction := "i0" }, { address := "0x404", instruction := "i1" }]
    (by decide) (by decide) (by decide)).1 (by decide)

/-- After `cacheSet m k v`, looking up `k` finds `v`. -/
theorem lookup_cacheSet (m : List (Int × DisassembledLine)) (k : Int) (v : DisassembledLine) :
    (cacheSet m k v).lookup k = some v := by
  unfold cacheSet
  split
  · next hs =>
    induction m with
    | nil => simp [List.lookup] at hs
    | cons p rest ih =>
      rcases p with ⟨a, b⟩
      by_cases hk : a = k
      · subst hk
        simp [List.lookup_cons]
      · have hkb : (k == a) = false := beq_false_of_ne (Ne.symm hk)
        have hab : (a == k) = false := beq_false_of_ne hk
        simp only [List.lookup_cons, hkb, cond_false] at hs
        simp only [List.map_cons, hab, Bool.false_eq_true, if_false, List.lookup_cons,
          hkb, cond_false]
        exact ih hs
  · induction m with
    | nil => simp [List.lookup_cons]
    | cons p rest ih =>
      next hs =>
      rcases p with ⟨a, b⟩
      by_cases hk : a = k
      · subst hk
        simp [List.lookup_cons] at hs
      · have hkb : (k == a) = false := beq_false_of_ne (Ne.symm hk)
        simp only [List.lookup_cons, hkb, cond_false] at hs
        simp only [List.cons_append, List.lookup_cons, hkb, cond_false]
        exact ih hs

/-- C5: `disassembleLine` caches a successful decode — the second call for
the same address is a cache hit performing no memory fetch and returning
the same line — and never caches the degraded address-only line of a
failed fetch/decode, so a second call after a failure fetches again
(the fetch-count component is 1, not 0). -/
theorem disassembleLine_caching (env env2 : DisasmEnv) (pc thread thread2 : Int) (s : DMState)
    (hmiss : s.lineCache.lookup pc = none) :
    (∀ t, DisassemblyManager.disassembleLineTry env pc thread (env.isCopperThread thread)
        (formatAddress pc ++ ": ") = .ok t →
      (let line : DisassembledLine := { text := t, isCopper := env.isCopperThread thread }
       let s1 : DMState := { s with lineCache := cacheSet s.lineCache pc line }
       DisassemblyManager.disassembleLine env pc thread s = (line, s1, 1) ∧
       s1.lineCache.lookup pc = some line ∧
       DisassemblyManager.disassembleLine env2 pc thread2 s1 = (line, s1, 0)))
  ∧ (∀ e, DisassemblyManager.disassembleLineTry env pc thread (env.isCopperThread thread)
        (formatAddress pc ++ ": ") = .error e →
      DisassemblyManager.disassembleLine env pc thread s =
        ({ text := formatAddress pc ++ ": ", isCopper := env.isCopperThread thread }, s, 1) ∧
      (DisassemblyManager.disassembleLine env2 pc thread2 s).2.2 = 1) := by
  constructor
  · intro t ht
    have hcache := lookup_cacheSet s.lineCache pc
      { text := t, isCopper := env.isCopperThread thread }
    refine ⟨?_, hcache, ?_⟩
    · unfold DisassemblyManager.disassembleLine
      simp only [hmiss, ht]
    · unfold DisassemblyManager.disassembleLine
      simp only [hcache]
  · intro e he
    constructor
    · unfold DisassemblyManager.disassembleLine
      simp only [hmiss, he]
    · unfold DisassemblyManager.disassembleLine
      simp only [hmiss]
      cases DisassemblyManager.disassembleLineTry env2 pc thread2
          (env2.isCopperThread thread2) (formatAddress pc ++ ": ") with
      | ok t2 => rfl
      | error e2 => rfl

/-- Closed instance of `disassembleLine_caching`: a successful copper
decode at `$1010` is cached, and the second call is a fetch-free hit. -/
theorem disassembleLine_caching_witness :
    DisassemblyManager.disassembleLine copperSelEnv 0x1010 1 {} =
      ({ text := "$1010: MOVE x", isCopper := true },
       { lineCache := [(0x1010, { text := "$1010: MOVE x", isCopper := true })] }, 1) ∧
    List.lookup (0x1010 : Int)
        ([(0x1010, { text := "$1010: MOVE x", isCopper := true })] :
          List (Int × DisassembledLine)) =
      some { text := "$1010: MOVE x", isCopper := true } ∧
    DisassemblyManager.disassembleLine failFetchEnv 0x1010 1
        { lineCache := [(0x1010, { text := "$1010: MOVE x", isCopper := true })] } =
      ({ text := "$1010: MOVE x", isCopper := true },
       { lineCache := [(0x1010, { text := "$1010: MOVE x", isCopper := true })] }, 0) :=
  (disassembleLine_caching copperSelEnv failFetchEnv 0x1010 1 1 {} rfl).1
    "$1010: MOVE x" (by decide)

/-- An ok result of the `setBreakpoint` try block leaves the pending queue
untouched and required a successful remote installation. -/
theorem setBreakpointTry_ok (env : BpEnv) (bp : GdbBreakpoint) (s : BpState)
    (r : GdbBreakpoint × BpState)
    (h : BreakpointManager.setBreakpointTry env bp s = .ok r) :
    r.2.pendingBreakpoints = s.pendingBreakpoints ∧
    ∃ b, env.gdbSetBreakpoint b = .ok () := by
  unfold BreakpointManager.setBreakpointTry at h
  split at h
  · split at h
    · exact absurd h (by simp)
    · simp only [] at h
      split at h
      · split at h
        · exact absurd h (by simp)
        · split at h
          · injection h with h1
            subst h1
            exact ⟨rfl, _, by assumption⟩
          · exact absurd h (by simp)
        · exact absurd h (by simp)
      · split at h
        · exact absurd h (by simp)
        · split at h
          · injection h with h1
            subst h1
            exact ⟨rfl, _, by assumption⟩
          · exact absurd h (by simp)
  · simp only [] at h
    split at h
    · split at h
      · injection h with h1
        subst h1
        refine ⟨?_, _, by assumption⟩
        split
        · rfl
        · rfl
      · exact absurd h (by simp)
    · exact absurd h (by simp)

/-- C2: for every breakpoint and every collaborator behaviour,
`setBreakpoint` is total (the model's result type is a plain pair — the
catch handler demotes every thrown error).  It returns `true` only when
connected and the remote installation call succeeded, leaving the pending
queue untouched; it returns `false` ("not applied") exactly by appending
one entry to the pending queue, marked unverified, carrying the captured
error message whenever the failure was a thrown error, and leaving the
active list untouched. -/
theorem setBreakpoint_no_escape (env : BpEnv) (bp : GdbBreakpoint) (s : BpState) :
    ((BreakpointManager.setBreakpoint env bp s).1 = true →
       (BreakpointManager.setBreakpoint env bp s).2.pendingBreakpoints =
           s.pendingBreakpoints ∧
       env.isConnected = true ∧
       ∃ b, env.gdbSetBreakpoint b = .ok ())
  ∧ ((BreakpointManager.setBreakpoint env bp s).1 = false →
       ∃ bp', (BreakpointManager.setBreakpoint env bp s).2.pendingBreakpoints =
           s.pendingBreakpoints ++ [bp'] ∧
         bp'.verified = false ∧
         (BreakpointManager.setBreakpoint env bp s).2.breakpoints = s.breakpoints ∧
         (∀ e b, env.isConnected = true →
            BreakpointManager.setBreakpointTry env bp s = .error (e, b) →
            bp' = { b with verified := false, message := some e })) := by
  unfold BreakpointManager.setBreakpoint
  cases hc : env.isConnected with
  | false =>
    constructor
    · intro hT
      simp at hT
    · intro _
      refine ⟨{ bp with verified := false }, rfl, rfl, rfl, ?_⟩
      intro e b hcon
      exact absurd hcon (by simp)
  | true =>
    cases ht : BreakpointManager.setBreakpointTry env bp s with
    | ok r =>
      constructor
      · intro _
        have hk := setBreakpointTry_ok env bp s r ht
        simp only [Bool.not_true, Bool.false_eq_true, if_false, ht]
        exact ⟨hk.1, trivial, hk.2⟩
      · intro hF
        simp [ht] at hF
    | error p =>
      rcases p with ⟨e0, b0⟩
      constructor
      · intro hT
        simp [ht] at hT
      · intro _
        simp only [Bool.not_true, Bool.false_eq_true, if_false, ht]
        refine ⟨{ b0 with verified := false, message := some e0 }, rfl, rfl, rfl, ?_⟩
        intro e b _ hteq
        injection hteq with hp
        injection hp with he hb
        rw [he, hb]

/-- Closed instance of `setBreakpoint_no_escape`: a rejected data
breakpoint is demoted to pending with the captured message. -/
theorem setBreakpoint_no_escape_witness :
    ∃ bp', (BreakpointManager.setBreakpoint bpGdbFailEnv dataBp {}).2.pendingBreakpoints =
        ({} : BpState).pendingBreakpoints ++ [bp'] ∧
      bp'.verified = false ∧
      (BreakpointManager.setBreakpoint bpGdbFailEnv dataBp {}).2.breakpoints =
        ({} : BpState).breakpoints ∧
      (∀ e b, bpGdbFailEnv.isConnected = true →
         BreakpointManager.setBreakpointTry bpGdbFailEnv dataBp {} = .error (e, b) →
         bp' = { b with verified := false, message := some e }) :=
  (setBreakpoint_no_escape bpGdbFailEnv dataBp {}).2 (by decide)

/-- The `setBreakpoint` only ever appends to the pending queue, and every
appended entry is unverified. -/
theorem setBreakpoint_pending_shape (env : BpEnv) (bp : GdbBreakpoint) (s : BpState) :
    ∃ tail, (BreakpointManager.setBreakpoint env bp s).2.pendingBreakpoints =
      s.pendingBreakpoints ++ tail ∧ ∀ x ∈ tail, x.verified = false := by
  unfold BreakpointManager.setBreakpoint
  split
  · refine ⟨[{ bp with verified := false }], rfl, ?_⟩
    intro x hx
    simp only [List.mem_singleton] at hx
    rw [hx]
  · cases ht : BreakpointManager.setBreakpointTry env bp s with
    | ok r =>
      refine ⟨[], ?_, by simp⟩
      simp [(setBreakpointTry_ok env bp s r ht).1]
    | error p =>
      refine ⟨[{ p.2 with verified := false, message := some p.1 }], ?_, ?_⟩
      · rfl
      · intro x hx
        simp only [List.mem_singleton] at hx
        rw [hx]

/-- Pending-queue membership is preserved by `setBreakpoint`. -/
theorem setBreakpoint_pending_mono (env : BpEnv) (bp : GdbBreakpoint) (s : BpState)
    (x : GdbBreakpoint) (hx : x ∈ s.pendingBreakpoints) :
    x ∈ (BreakpointManager.setBreakpoint env bp s).2.pendingBreakpoints := by
  obtain ⟨tail, heq, -⟩ := setBreakpoint_pending_shape env bp s
  rw [heq]
  exact List.mem_append_left _ hx

/-- The dispatch loop dispatches exactly the captured entries, in order. -/
theorem flushLoop_dispatched (envs : Nat → BpEnv) (ext : Nat → List GdbBreakpoint)
    (l : List GdbBreakpoint) (i : Nat) (s : BpState) :
    (BreakpointManager.flushLoop envs ext l i s).2 = l := by
  induction l generalizing i s with
  | nil => rfl
  | cons bp rest ih =>
    unfold BreakpointManager.flushLoop
    simp only []
    rw [ih]

/-- Pending-queue membership is preserved by the dispatch loop. -/
theorem flushLoop_pending_mono (envs : Nat → BpEnv) (ext : Nat → List GdbBreakpoint)
    (l : List GdbBreakpoint) (i : Nat) (s : BpState) (x : GdbBreakpoint)
    (hx : x ∈ s.pendingBreakpoints) :
    x ∈ (BreakpointManager.flushLoop envs ext l i s).1.pendingBreakpoints := by
  induction l generalizing i s with
  | nil =>
    simp only [BreakpointManager.flushLoop]
    exact List.mem_append_left _ hx
  | cons bp rest ih =>
    unfold BreakpointManager.flushLoop
    simp only []
    apply ih
    apply setBreakpoint_pending_mono
    exact List.mem_append_left _ hx

/-- Entries appended by other callers at any suspension point of the
dispatch land in the final pending queue. -/
theorem flushLoop_ext_mem (envs : Nat → BpEnv) (ext : Nat → List GdbBreakpoint)
    (l : List GdbBreakpoint) (i : Nat) (s : BpState) (j : Nat) (hij : i ≤ j)
    (hj : j ≤ i + l.length) (x : GdbBreakpoint) (hx : x ∈ ext j) :
    x ∈ (BreakpointManager.flushLoop envs ext l i s).1.pendingBreakpoints := by
  induction l generalizing i s with
  | nil =>
    have : j = i := by simp at hj; omega
    subst this
    simp only [BreakpointManager.flushLoop]
    exact List.mem_append_right _ hx
  | cons bp rest ih =>
    unfold BreakpointManager.flushLoop
    simp only []
    by_cases hji : j = i
    · subst hji
      apply flushLoop_pending_mono
      apply setBreakpoint_pending_mono
      exact List.mem_append_right _ hx
    · refine ih (i + 1) _ (by omega) ?_
      simp only [List.length_cons] at hj
      omega

/-- Every entry of the final pending queue either was already pending,
was appended by another caller, or is an unverified demotion. -/
theorem flushLoop_pending_sources (envs : Nat → BpEnv) (ext : Nat → List GdbBreakpoint)
    (l : List GdbBreakpoint) (i : Nat) (s : BpState) (x : GdbBreakpoint)
    (hx : x ∈ (BreakpointManager.flushLoop envs ext l i s).1.pendingBreakpoints) :
    x ∈ s.pendingBreakpoints ∨ (∃ j, i ≤ j ∧ j ≤ i + l.length ∧ x ∈ ext j) ∨
      x.verified = false := by
  induction l generalizing i s with
  | nil =>
    simp only [BreakpointManager.flushLoop] at hx
    rcases List.mem_append.1 hx with h | h
    · exact Or.inl h
    · exact Or.inr (Or.inl ⟨i, le_refl i, by simp, h⟩)
  | cons bp rest ih =>
    unfold BreakpointManager.flushLoop at hx
    simp only [] at hx
    rcases ih (i + 1) _ hx with h | ⟨j, hij, hjl, hje⟩ | h
    · obtain ⟨tail, heq, htail⟩ := setBreakpoint_pending_shape (envs i) bp
        { s with pendingBreakpoints := s.pendingBreakpoints ++ ext i }
      rw [heq] at h
      rcases List.mem_append.1 h with h2 | h2
      · rcases List.mem_append.1 h2 with h3 | h3
        · exact Or.inl h3
        · exact Or.inr (Or.inl ⟨i, le_refl i, by simp, h3⟩)
      · exact Or.inr (Or.inr (htail x h2))
    · exact Or.inr (Or.inl ⟨j, by omega, by simp only [List.length_cons]; omega, hje⟩)
    · exact Or.inr (Or.inr h)

/-- C3: `sendAllPendingBreakpoints` dispatches each of the captured
pending entries to `setBreakpoint` exactly once, in order (the dispatched
list equals the captured queue); the queue is replaced by an empty one
before dispatch, so every entry another caller appends during dispatch is
in the new queue afterwards, and the new queue holds nothing but such
entries and unverified demotions — captured entries are neither lost nor
double-sent. -/
theorem sendAllPendingBreakpoints_flush (envs : Nat → BpEnv)
    (ext : Nat → List GdbBreakpoint) (s : BpState) :
    (BreakpointManager.sendAllPendingBreakpoints envs ext s).2 = s.pendingBreakpoints
  ∧ (s.pendingBreakpoints ≠ [] →
       (∀ j, j ≤ s.pendingBreakpoints.length → ∀ x, x ∈ ext j →
          x ∈ (BreakpointManager.sendAllPendingBreakpoints envs ext s).1.pendingBreakpoints)
     ∧ (∀ x, x ∈ (BreakpointManager.sendAllPendingBreakpoints envs ext s).1.pendingBreakpoints →
          (∃ j, j ≤ s.pendingBreakpoints.length ∧ x ∈ ext j) ∨ x.verified = false)) := by
  unfold BreakpointManager.sendAllPendingBreakpoints
  by_cases hne : s.pendingBreakpoints = []
  · rw [hne]
    simp
  · have hlen : s.pendingBreakpoints.length > 0 := List.length_pos.2 hne
    rw [if_pos hlen]
    refine ⟨flushLoop_dispatched envs ext _ 0 _, fun _ => ⟨?_, ?_⟩⟩
    · intro j hjl x hx
      exact flushLoop_ext_mem envs ext _ 0 _ j (Nat.zero_le j) (by omega) x hx
    · intro x hx
      rcases flushLoop_pending_sources envs ext _ 0 _ x hx with h | ⟨j, _, hjl, hje⟩ | h
      · simp at h
      · exact Or.inl ⟨j, by omega, hje⟩
      · exact Or.inr h

/-- Closed instance of `sendAllPendingBreakpoints_flush`: one captured
entry is dispatched exactly once, and an entry appended by another caller
during dispatch is in the new queue. -/
theorem sendAllPendingBreakpoints_flush_witness :
    (BreakpointManager.sendAllPendingBreakpoints (fun _ => bpGdbFailEnv)
        (fun j => if j == 1 then [srcBp2] else [])
        { pendingBreakpoints := [dataBp] }).2 = [dataBp] ∧
    srcBp2 ∈ (BreakpointManager.sendAllPendingBreakpoints (fun _ => bpGdbFailEnv)
        (fun j => if j == 1 then [srcBp2] else [])
        { pendingBreakpoints := [dataBp] }).1.pendingBreakpoints :=
  ⟨(sendAllPendingBreakpoints_flush (fun _ => bpGdbFailEnv)
      (fun j => if j == 1 then [srcBp2] else []) { pendingBreakpoints := [dataBp] }).1,
   ((sendAllPendingBreakpoints_flush (fun _ => bpGdbFailEnv)
      (fun j => if j == 1 then [srcBp2] else []) { pendingBreakpoints := [dataBp] }).2
      (by decide)).1 1 (by decide) srcBp2 (by decide)⟩

/-- The clear loop, characterised pointwise: removals are attempted
exactly on the matching entries (in order, with consecutive call ranks);
the retained list keeps an entry iff it does not match or its removal
failed; the error flag is set iff some attempted removal failed. -/
theorem clearLoop_eq (removeEnv : Nat → GdbBreakpoint → Except String Unit)
    (type : GdbBreakpointType) (source : Option DapSource)
    (l : List GdbBreakpoint) (k : Nat) :
    BreakpointManager.clearLoop removeEnv type source l k =
      (((attemptRanks (BreakpointManager.shouldClear type source) l k).filter fun p =>
          !(BreakpointManager.shouldClear type source p.1) ||
            removalFailed removeEnv p.2 p.1).map Prod.fst,
       (attemptRanks (BreakpointManager.shouldClear type source) l k).any fun p =>
         BreakpointManager.shouldClear type source p.1 && removalFailed removeEnv p.2 p.1,
       l.filter (BreakpointManager.shouldClear type source)) := by
  induction l generalizing k with
  | nil => rfl
  | cons bp rest ih =>
    unfold BreakpointManager.clearLoop attemptRanks
    by_cases hc : BreakpointManager.shouldClear type source bp
    · cases hre : removeEnv k bp with
      | ok u =>
        have hrf : removalFailed removeEnv k bp = false := by
          unfold removalFailed
          rw [hre]
        simp [ih, hc, hrf, hre, List.filter_cons, List.any_cons]
      | error e =>
        have hrf : removalFailed removeEnv k bp = true := by
          unfold removalFailed
          rw [hre]
        simp [ih, hc, hrf, hre, List.filter_cons, List.any_cons]
    · have hcb : BreakpointManager.shouldClear type source bp = false :=
        Bool.eq_false_iff.2 hc
      simp [ih, hcb, List.filter_cons, List.any_cons]

/-- C4: `clearBreakpointsType(type, source?)` attempts remote removal
exactly for the active entries matching the kind (and, for source clears,
the file identity), in order; the resulting active list keeps exactly the
non-matching entries and the matching entries whose removal threw
(successfully removed entries are not re-added); the pending queue is
untouched; and the call throws the one aggregate error iff at least one
removal failed. -/
theorem clearBreakpointsType_partition (removeEnv : Nat → GdbBreakpoint → Except String Unit)
    (type : GdbBreakpointType) (source : Option DapSource) (s : BpState) :
    (BreakpointManager.clearBreakpointsType removeEnv type source s).attempts =
      s.breakpoints.filter (BreakpointManager.shouldClear type source)
  ∧ (BreakpointManager.clearBreakpointsType removeEnv type source s).state.breakpoints =
      ((attemptRanks (BreakpointManager.shouldClear type source) s.breakpoints 0).filter
        fun p => !(BreakpointManager.shouldClear type source p.1) ||
          removalFailed removeEnv p.2 p.1).map Prod.fst
  ∧ (BreakpointManager.clearBreakpointsType removeEnv type source s).state.pendingBreakpoints =
      s.pendingBreakpoints
  ∧ ((BreakpointManager.clearBreakpointsType removeEnv type source s).thrown =
        some "Some breakpoints cannot be removed" ↔
      ∃ p ∈ attemptRanks (BreakpointManager.shouldClear type source) s.breakpoints 0,
        BreakpointManager.shouldClear type source p.1 = true ∧
          removalFailed removeEnv p.2 p.1 = true)
  ∧ ((BreakpointManager.clearBreakpointsType removeEnv type source s).thrown = none ↔
      ¬ ∃ p ∈ attemptRanks (BreakpointManager.shouldClear type source) s.breakpoints 0,
        BreakpointManager.shouldClear type source p.1 = true ∧
          removalFailed removeEnv p.2 p.1 = true) := by
  unfold BreakpointManager.clearBreakpointsType
  rw [clearLoop_eq]
  simp only []
  refine ⟨trivial, trivial, trivial, ?_, ?_⟩
  · constructor
    · intro hthrown
      split at hthrown
      · next hany =>
        obtain ⟨p, hp, hcond⟩ := List.any_eq_true.1 hany
        exact ⟨p, hp, (Bool.and_eq_true _ _).mp hcond⟩
      · exact absurd hthrown (by simp)
    · intro ⟨p, hp, h1, h2⟩
      have hany : ((attemptRanks (BreakpointManager.shouldClear type source) s.breakpoints 0).any
          fun p => BreakpointManager.shouldClear type source p.1 &&
            removalFailed removeEnv p.2 p.1) = true :=
        List.any_eq_true.2 ⟨p, hp, (Bool.and_eq_true _ _).mpr ⟨h1, h2⟩⟩
      rw [if_pos hany]
  · constructor
    · intro hthrown hex
      obtain ⟨p, hp, h1, h2⟩ := hex
      have hany : ((attemptRanks (BreakpointManager.shouldClear type source) s.breakpoints 0).any
          fun p => BreakpointManager.shouldClear type source p.1 &&
            removalFailed removeEnv p.2 p.1) = true :=
        List.any_eq_true.2 ⟨p, hp, (Bool.and_eq_true _ _).mpr ⟨h1, h2⟩⟩
      rw [if_pos hany] at hthrown
      exact absurd hthrown (by simp)
    · intro hnex
      split
      · next hany =>
        obtain ⟨p, hp, hcond⟩ := List.any_eq_true.1 hany
        exact absurd ⟨p, hp, (Bool.and_eq_true _ _).mp hcond⟩ hnex
      · rfl

/-- Closed instance of `clearBreakpointsType_partition` on a mixed active
list where the first removal is refused: removal is attempted exactly on
the two data breakpoints, and the aggregate error is thrown. -/
theorem clearBreakpointsType_partition_witness :
    (BreakpointManager.clearBreakpointsType
        (fun k _ => if k == 0 then .error "refused" else .ok ())
        GdbBreakpointType.DATA none
        { breakpoints := [dataBp, srcBp, { dataBp with id := some 5 }],
          pendingBreakpoints := [] }).attempts =
      [dataBp, srcBp, { dataBp with id := some 5 }].filter
        (BreakpointManager.shouldClear GdbBreakpointType.DATA none) ∧
    (BreakpointManager.clearBreakpointsType
        (fun k _ => if k == 0 then .error "refused" else .ok ())
        GdbBreakpointType.DATA none
        { breakpoints := [dataBp, srcBp, { dataBp with id := some 5 }],
          pendingBreakpoints := [] }).thrown =
      some "Some breakpoints cannot be removed" :=
  ⟨(clearBreakpointsType_partition
      (fun k _ => if k == 0 then .error "refused" else .ok ())
      GdbBreakpointType.DATA none
      { breakpoints := [dataBp, srcBp, { dataBp with id := some 5 }],
        pendingBreakpoints := [] }).1,
   (clearBreakpointsType_partition
      (fun k _ => if k == 0 then .error "refused" else .ok ())
      GdbBreakpointType.DATA none
      { breakpoints := [dataBp, srcBp, { dataBp with id := some 5 }],
        pendingBreakpoints := [] }).2.2.2.1.mpr
     ⟨(dataBp, 0), by decide, by decide, by decide⟩⟩
